import Mathlib

/-!
Verification development for the conversational code-editing engine in
`coder.py` (class `Coder`).  The Python source is shallowly embedded:
pure helpers become Lean functions on `String` / `List Char`; the mutable
session state (tracked-file registry, file system, conversation buffers,
modification-time baseline) becomes an explicit state record threaded
through the transition functions; fallible code returns `Option`, with
`none` standing for a raised Python exception; interactive prompts and
remote-model calls are oracle parameters.
-/

/-! ## Python text primitives -/

/-- Python line-break characters recognised by `str.splitlines`
(`\n`, `\r`, `\v`, `\f`, the file/group/record separators, NEL and the
unicode line/paragraph separators; `\r\n` is handled as one break). -/
def isPyLineBreak (c : Char) : Bool :=
  c = '\n' ∨ c = '\r' ∨ c = '\x0b' ∨ c = '\x0c' ∨
  c = '\x1c' ∨ c = '\x1d' ∨ c = '\x1e' ∨ c = '\x85' ∨
  c = '\u2028' ∨ c = '\u2029'

/-- Whitespace for Python `str.strip()` / regex `\s` (ASCII part plus the
common unicode members; exotic unicode spaces do not occur in the inputs
considered here). -/
def isPySpace (c : Char) : Bool :=
  c = ' ' ∨ c = '\t' ∨ c = '\n' ∨ c = '\r' ∨ c = '\x0b' ∨ c = '\x0c' ∨
  c = '\x1c' ∨ c = '\x1d' ∨ c = '\x1e' ∨ c = '\x1f' ∨ c = '\x85' ∨ c = '\xa0'

/-- Worker for `str.splitlines`: accumulates the current line (reversed). -/
def splitlinesGo (acc : List Char) : List Char → List (List Char)
  | [] => [acc.reverse]
  | '\r' :: '\n' :: rest =>
    acc.reverse :: (if rest.isEmpty then [] else splitlinesGo [] rest)
  | c :: rest =>
    if isPyLineBreak c then
      acc.reverse :: (if rest.isEmpty then [] else splitlinesGo [] rest)
    else
      splitlinesGo (c :: acc) rest

/-- Python `str.splitlines()`: the empty string yields `[]`; a trailing
break does not produce a final empty line. -/
def pySplitlines (s : String) : List String :=
  if s = "" then [] else (splitlinesGo [] s.data).map (fun l => ⟨l⟩)

/-- Python `str.strip()` (default whitespace at both ends). -/
def pyStrip (s : String) : String :=
  ⟨((s.data.dropWhile isPySpace).reverse.dropWhile isPySpace).reverse⟩

/-- Python `str.strip(c)` for a single character `c`. -/
def pyStripChar (s : String) (c : Char) : String :=
  ⟨((s.data.dropWhile (· = c)).reverse.dropWhile (· = c)).reverse⟩

/-- Python `str.lower()` (ASCII case mapping suffices for the values
compared in the source: `"n"`, `"no"`, `"y"`, `"yes"`). -/
def pyLower (s : String) : String :=
  ⟨s.data.map Char.toLower⟩

/-- Python slicing `s[:n]` (character based, like `str` indexing). -/
def pyTake (s : String) (n : Nat) : String :=
  ⟨s.data.take n⟩

/-- `t` is a suffix of `s` (Python `str.endswith`). -/
def endsWithStr (s t : String) : Bool :=
  t.data.isSuffixOf s.data

/-- `t` is a prefix of `s` (Python `str.startswith`). -/
def startsWithStr (s t : String) : Bool :=
  t.data.isPrefixOf s.data

/-- Split a character list on a separator character (like `str.split`). -/
def splitOnCharCore (sep : Char) : List Char → List (List Char)
  | [] => [[]]
  | c :: r =>
    if c = sep then [] :: splitOnCharCore sep r
    else
      match splitOnCharCore sep r with
      | h :: t => (c :: h) :: t
      | [] => [[c]]

/-- `pathlib.Path(f).name`: the last nonempty `/`-separated component
(`pathlib` drops empty components produced by doubled or trailing
slashes). -/
def pathName (f : String) : String :=
  ⟨((splitOnCharCore '/' f.data).filter (fun p => p ≠ [])).getLastD []⟩

/-! ## `Coder.strip_quoted_wrapping`

```python
def strip_quoted_wrapping(self, res, fname=None):
    if not res:
        return res
    res = res.splitlines()
    if fname and res[0].strip().endswith(Path(fname).name):
        res = res[1:]
    if res[0].startswith("```") and res[-1].startswith("```"):
        res = res[1:-1]
    res = "\n".join(res)
    if res and res[-1] != "\n":
        res += "\n"
    return res
```

`none` models a raised exception: after the first line is dropped the
code indexes `res[0]` / `res[-1]`, which raises `IndexError` when the
list became empty. -/

/-- Python `"\n".join(lines)`. -/
def joinNl : List String → String
  | [] => ""
  | [l] => l
  | l :: ls => l ++ "\n" ++ joinNl ls

/-- The `if fname and res[0].strip().endswith(Path(fname).name): res = res[1:]`
step (a Python `fname` that is `None` or empty is falsy). -/
def stripDropFname (lines : List String) (fname : Option String) : List String :=
  match fname, lines with
  | some f, l0 :: rest =>
    if f ≠ "" ∧ endsWithStr (pyStrip l0) (pathName f) then rest else l0 :: rest
  | _, _ => lines

/-- The `if res[0].startswith("```") and res[-1].startswith("```"): res = res[1:-1]`
step; `none` models the `IndexError` raised by `res[0]` when the
previous step emptied the list. -/
def stripDropFence : List String → Option (List String)
  | [] => none
  | l0 :: rest =>
    some (if startsWithStr l0 "```" ∧ startsWithStr ((l0 :: rest).getLastD "") "```" then
            rest.dropLast  -- `res[1:-1]`
          else l0 :: rest)

/-- The final join-and-terminate step:
`res = "\n".join(res); if res and res[-1] != "\n": res += "\n"`. -/
def stripFinish (lines : List String) : String :=
  if joinNl lines ≠ "" ∧ (joinNl lines).data.getLast? ≠ some '\n' then joinNl lines ++ "\n"
  else joinNl lines

def strip_quoted_wrapping (res : String) (fname : Option String) : Option String :=
  if res = "" then some res
  else
    match stripDropFence (stripDropFname (pySplitlines res) fname) with
    | none => none
    | some ls => some (stripFinish ls)

/-! ## Chunk Matcher (`findblock.replace_most_similar_chunk`) -/

/-- Replace the first occurrence of the nonempty pattern `pat` inside `s`
by `rep`; `none` when `pat` does not occur (spec strategy 1). -/
def replaceFirst : List Char → List Char → List Char → Option (List Char)
  | s, pat, rep =>
    if pat.isPrefixOf s then some (rep ++ s.drop pat.length)
    else
      match s with
      | [] => none
      | c :: r => (replaceFirst r pat rep).map (fun t => c :: t)

/-- Lines of a text for block matching: split on `\n`, dropping the empty
final piece produced by a trailing newline. -/
def blockLines (s : String) : List String :=
  let ls := (splitOnCharCore '\n' s.data).map (fun l => (⟨l⟩ : String))
  if ls.getLast? = some "" then ls.dropLast else ls

/-- Levenshtein distance between two line lists (unit costs), with a
fuel argument for structural recursion; every recursive call shortens
the combined length, so `levLines` below always supplies enough fuel. -/
def levLinesF : Nat → List String → List String → Nat
  | _, [], ys => ys.length
  | _, x :: xs, [] => (x :: xs).length
  | 0, _, _ => 0
  | fuel + 1, x :: xs, y :: ys =>
    if x = y then levLinesF fuel xs ys
    else 1 + Nat.min (levLinesF fuel xs ys)
               (Nat.min (levLinesF fuel (x :: xs) ys) (levLinesF fuel xs (y :: ys)))

/-- Levenshtein distance between two line lists (unit costs). -/
def levLines (xs ys : List String) : Nat :=
  levLinesF (xs.length + ys.length) xs ys

/-- First index at which the whitespace-normalised lines of the block
occur as a consecutive run inside the content lines (spec strategy 2). -/
def wsNormFind (cls bls : List String) : Option Nat :=
  (List.range (cls.length + 1)).find?
    (fun i => i + bls.length ≤ cls.length ∧
      ((cls.drop i).take bls.length).map pyStrip = bls.map pyStrip)

/-- Similarity of a window `w` against the block `b`, as the pair
(numerator, denominator) of `1 - dist/maxLen`; comparisons are done by
cross multiplication. -/
def windowScore (w b : List String) : Nat × Nat :=
  let m := Nat.max w.length b.length
  (m - Nat.min m (levLines w b), m)

/-- All candidate windows (start, length) whose length is within ±20 % of
the block length, in order of start position (earliest-wins tie break). -/
def fuzzyWindows (clen blen : Nat) : List (Nat × Nat) :=
  ((List.range (clen + 1)).map (fun i =>
      ((List.range' (Nat.max 1 ((4 * blen) / 5)) ((6 * blen) / 5 + 1 - Nat.max 1 ((4 * blen) / 5))).filter
          (fun l => i + l ≤ clen)).map (fun l => (i, l)))).flatten

/-- Best fuzzy window: earliest window attaining the maximal similarity,
accepted only when the similarity is at least 0.8 (spec strategy 3). -/
def fuzzyFind (cls bls : List String) : Option (Nat × Nat) :=
  let scored := (fuzzyWindows cls.length bls.length).map
    (fun il => (il, windowScore ((cls.drop il.1).take il.2) bls))
  let best := scored.foldl
    (fun acc x =>
      match acc with
      | none => some x
      | some a => if x.2.1 * a.2.2 > a.2.1 * x.2.2 then some x else some a)
    none
  match best with
  | none => none
  | some a => if 5 * a.2.1 ≥ 4 * a.2.2 ∧ a.2.2 ≠ 0 then some a.1 else none

/-- Modelled from the spec: `replace_most_similar_chunk` is defined in
`findblock.py`, a file of this repository that is not under `src/`.
Spec §4.1, first success wins:
1. exact substring match of `before`, replace first occurrence;
2. per-line whitespace-normalised exact match;
3. sliding-window approximate match over line runs within ±20 % of the
   block length, scored by normalised line-level edit distance, accepted
   at similarity ≥ 0.8, earliest window wins;
4. empty `before`: `after` verbatim iff the file is empty, else NO_MATCH
   (`none`). -/
def replace_most_similar_chunk (content before after : String) : Option String :=
  if before = "" then
    if content = "" then some after else none
  else
    match replaceFirst content.data before.data after.data with
    | some r => some ⟨r⟩
    | none =>
      let cls := blockLines content
      let bls := blockLines before
      let als := blockLines after
      match wsNormFind cls bls with
      | some i =>
        some (joinNl (cls.take i ++ als ++ cls.drop (i + bls.length)) ++ "\n")
      | none =>
        match fuzzyFind cls bls with
        | some il =>
          some (joinNl (cls.take il.1 ++ als ++ cls.drop (il.1 + il.2)) ++ "\n")
        | none => none

/-! ## File system and registry -/

/-- The working tree: association list from file name to content; a
missing key models a nonexistent file. -/
abbrev FS := List (String × String)

/-- `Path(p).read_text()` (as an `Option`: `none` = `FileNotFoundError`). -/
def FS.read? (fs : FS) (p : String) : Option String :=
  (fs.find? (fun e => e.1 = p)).map (fun e => e.2)

/-- `Path(p).write_text(c)` / `Path(p).touch()`: whole-file replace. -/
def FS.write (fs : FS) (p c : String) : FS :=
  if (fs.find? (fun e => e.1 = p)).isSome then
    fs.map (fun e => if e.1 = p then (p, c) else e)
  else fs ++ [(p, c)]

/-- `Coder.fnames`: tracked-file registry, file name ↦ recorded mtime.
Python dicts preserve insertion order, so a list of pairs. -/
abbrev Registry := List (String × Nat)

/-- The registered file names, in registration order. -/
def Registry.keys (r : Registry) : List String := r.map (fun e => e.1)

/-- `Coder.get_last_modified`: maximum current mtime over the registry
(`mtime` gives the on-disk mtimes; Python `max` over a nonempty registry,
the base 0 is never the result for the nonempty registries considered). -/
def get_last_modified (reg : Registry) (mtime : String → Nat) : Nat :=
  (Registry.keys reg).foldl (fun a f => Nat.max a (mtime f)) 0

/-! ## `Coder.do_replace`

```python
def do_replace(self, fname, before_text, after_text):
    before_text = self.strip_quoted_wrapping(before_text, fname)
    after_text = self.strip_quoted_wrapping(after_text, fname)
    fname = Path(fname)
    if not fname.exists() and not before_text:
        print("Creating empty file:", fname)
        fname.touch()
    content = fname.read_text()
    if not before_text and not content:
        new_content = after_text
    else:
        new_content = replace_most_similar_chunk(content, before_text, after_text)
        if not new_content:
            return
    fname.write_text(new_content)
    self.console.print(f"...")
    return True
```

Result: `none` = exception escaped (`IndexError` from the wrapper
stripping, or `FileNotFoundError` from `read_text`); `some (fs, b)` =
normal return, `b = true` for Python `True` (edit written), `b = false`
for Python `None` (no confident match, nothing written). -/

def do_replace (fs : FS) (fname before_text after_text : String) :
    Option (FS × Bool) :=
  match strip_quoted_wrapping before_text (some fname),
        strip_quoted_wrapping after_text (some fname) with
  | some before, some after =>
    let fs := if (FS.read? fs fname).isNone ∧ before = "" then FS.write fs fname "" else fs
    match FS.read? fs fname with
    | none => none  -- read_text raises FileNotFoundError
    | some content =>
      if before = "" ∧ content = "" then
        some (FS.write fs fname after, true)
      else
        match replace_most_similar_chunk content before after with
        | none => some (fs, false)
        | some new_content =>
          -- Python `if not new_content: return` also treats "" as falsy
          if new_content = "" then some (fs, false)
          else some (FS.write fs fname new_content, true)
  | _, _ => none  -- IndexError from strip_quoted_wrapping propagates

/-! ## `Coder.pattern` — the edit-block regex

```python
pattern = re.compile(
    r"(^```\S*\s*)?^((?:[a-zA-Z]:\\|/)?(?:[\w\s.-]+[\\/])*\w+(\.\w+)?)\s+"
    r"(^```\S*\s*)?^<<<<<<< ORIGINAL\n(.*?\n?)^=======\n(.*?)^>>>>>>> UPDATED",
    re.MULTILINE | re.DOTALL,
)
```

The pattern is embedded as a hand-specialised backtracking matcher in
continuation-passing style, one function per regex piece, preserving the
preference order of Python `re` (greedy pieces try the longer
consumption first, lazy pieces the shorter, optional groups try matching
before skipping).  Positions are suffixes of the subject; the boolean
`pnl` says whether the current position is at a line start (`^` under
`re.MULTILINE`: start of subject or right after a `\n`). -/

/-- ASCII part of regex `\w` (the source only ever feeds ASCII paths). -/
def isWordChar (c : Char) : Bool := c.isAlpha ∨ c.isDigit ∨ c = '_'

/-- The character class `[\w\s.-]`. -/
def isWClass (c : Char) : Bool := isWordChar c ∨ isPySpace c ∨ c = '.' ∨ c = '-'

/-- Literal piece: consume `pat` or fail. -/
def litChars (pat s : List Char) : Option (List Char) :=
  if pat.isPrefixOf s then some (s.drop pat.length) else none

/-- `\S*` (greedy): longest consumption of non-whitespace first.  The
consumed characters are never `\n`, so the line-start flag of the
continuation is unchanged by the consumption. -/
def starS : List Char → (List Char → Option α) → Option α
  | [], k => k []
  | c :: r, k => (if isPySpace c then none else starS r k) <|> k (c :: r)

/-- `\s*` (greedy), tracking whether the last consumed char was `\n`. -/
def starSpace : Bool → List Char → (Bool → List Char → Option α) → Option α
  | pnl, [], k => k pnl []
  | pnl, c :: r, k =>
    (if isPySpace c then starSpace (c = '\n') r k else none) <|> k pnl (c :: r)

/-- `\s+` (greedy): one mandatory whitespace char, then `\s*`. -/
def spacePlus : List Char → (Bool → List Char → Option α) → Option α
  | c :: r, k => if isPySpace c then starSpace (c = '\n') r k else none
  | [], _ => none

/-- `[\w\s.-]*` (greedy), used by the `+` below. -/
def starW : List Char → (List Char → Option α) → Option α
  | [], k => k []
  | c :: r, k => (if isWClass c then starW r k else none) <|> k (c :: r)

/-- `[\w\s.-]+` (greedy). -/
def plusW : List Char → (List Char → Option α) → Option α
  | c :: r, k => if isWClass c then starW r k else none
  | [], _ => none

/-- `\w*` (greedy), used by the `+` below. -/
def starWord : List Char → (List Char → Option α) → Option α
  | [], k => k []
  | c :: r, k => (if isWordChar c then starWord r k else none) <|> k (c :: r)

/-- `\w+` (greedy). -/
def plusWord : List Char → (List Char → Option α) → Option α
  | c :: r, k => if isWordChar c then starWord r k else none
  | [], _ => none

/-- `(?:[a-zA-Z]:\\|/)?`: drive prefix, root slash, or nothing, tried in
that order. -/
def absPrefix (s : List Char) (k : List Char → Option α) : Option α :=
  (match s with
   | a :: ':' :: '\\' :: r => if a.isAlpha then k r else none
   | _ => none)
  <|> (match s with
       | '/' :: r => k r
       | _ => none)
  <|> k s

/-- `(?:[\w\s.-]+[\\/])*` (greedy star; each iteration consumes at least
two characters, so a fuel of the subject length is always sufficient —
running out of fuel only refuses a match). -/
def dirStar : Nat → List Char → (List Char → Option α) → Option α
  | 0, _, _ => none
  | fuel + 1, s, k =>
    (plusW s (fun s1 =>
      match s1 with
      | c :: r => if c = '\\' ∨ c = '/' then dirStar fuel r k else none
      | [] => none))
    <|> k s

/-- `(\.\w+)?` (greedy option). -/
def optExt (s : List Char) (k : List Char → Option α) : Option α :=
  (match s with
   | '.' :: r => plusWord r k
   | _ => none)
  <|> k s

/-- Group 2, the path: `(?:[a-zA-Z]:\\|/)?(?:[\w\s.-]+[\\/])*\w+(\.\w+)?`. -/
def pathPart (fuel : Nat) (s : List Char) (k : List Char → Option α) : Option α :=
  absPrefix s (fun s1 => dirStar fuel s1 (fun s2 => plusWord s2 (fun s3 => optExt s3 k)))

/-- `(^```\S*\s*)?` (groups 1 and 4): an optional fence line, tried
before the empty alternative; its `^` needs a line start.  After the
literal backticks the position cannot be at a line start, and `\S*`
keeps it so; `\s*` then tracks line starts itself. -/
def optFence (pnl : Bool) (s : List Char) (k : Bool → List Char → Option α) : Option α :=
  (if pnl then
    match litChars "```".data s with
    | some s1 => starS s1 (fun s2 => starSpace false s2 k)
    | none => none
   else none)
  <|> k pnl s

/-- `(.*?\n?)^=======\n` (group 5 and its delimiter): lazy expansion; at
each split the optional `\n` is tried greedily, then the line-start
check and the literal.  Backtracking into later `=======` lines cannot
turn an overall failure into a success (the later search space is a
subset of the earlier one), so committing to the first delimiter that
matches is faithful to the regex. -/
def matchG5 : Bool → List Char → List Char → Option (List Char × List Char)
  | _, _, [] => none  -- all three alternatives fail on the empty subject
  | pnl, acc, c :: r =>
    (if c = '\n' ∧ "=======\n".data.isPrefixOf r then
      some (acc.reverse ++ ['\n'], r.drop 8)
     else none)
    <|> (if pnl ∧ "=======\n".data.isPrefixOf (c :: r) then
          some (acc.reverse, (c :: r).drop 8)
         else none)
    <|> matchG5 (c = '\n') (c :: acc) r

/-- `(.*?)^>>>>>>> UPDATED` (group 6 and the closing sentinel): lazy, as
for group 5. -/
def matchG6 : Bool → List Char → List Char → Option (List Char × List Char)
  | _, _, [] => none  -- the closing sentinel is nonempty and cannot start here
  | pnl, acc, c :: r =>
    (if pnl ∧ ">>>>>>> UPDATED".data.isPrefixOf (c :: r) then
      some (acc.reverse, (c :: r).drop 15)
     else none)
    <|> matchG6 (c = '\n') (c :: acc) r

/-- A successful match: the three used captures (groups 2, 5, 6) and the
suffix after the match end. -/
structure RMatch where
  path : List Char
  original : List Char
  updated : List Char
  rest : List Char
deriving DecidableEq, Repr

/-- One match attempt of `Coder.pattern` at a fixed position. -/
def pattern_matchAt (pnl : Bool) (s : List Char) : Option RMatch :=
  optFence pnl s (fun pnl1 s1 =>
    if pnl1 then
      pathPart (s1.length + 1) s1 (fun s3 =>
        let path := s1.take (s1.length - s3.length)
        spacePlus s3 (fun pnl4 s4 =>
          optFence pnl4 s4 (fun pnl5 s5 =>
            if pnl5 then
              match litChars "<<<<<<< ORIGINAL\n".data s5 with
              | some s6 =>
                match matchG5 true [] s6 with
                | some g5 =>
                  match matchG6 true [] g5.2 with
                  | some g6 => some ⟨path, g5.1, g6.1, g6.2⟩
                  | none => none
                | none => none
              | none => none
            else none)))
    else none)

/-- `pattern.finditer`: leftmost, non-overlapping scan.  Every match ends
right after the non-newline `D` of `UPDATED`, so scanning resumes with
the line-start flag off.  Each step shortens the subject, so a fuel of
`length + 1` is exact. -/
def pattern_scan : Nat → Bool → List Char → List RMatch
  | 0, _, _ => []
  | fuel + 1, pnl, s =>
    match pattern_matchAt pnl s with
    | some m => m :: pattern_scan fuel false m.rest
    | none =>
      match s with
      | [] => []
      | c :: r => pattern_scan fuel (c = '\n') r

/-- All matches of `Coder.pattern` in a response text, in textual order. -/
def pattern_finditer (content : String) : List RMatch :=
  pattern_scan (content.data.length + 1) true content.data

/-- An edit directive as consumed by `Coder.update_files`: the used
captures `path, original, updated` (the whole-match text feeds only the
fallback prompt, whose content the model oracle abstracts over). -/
structure Directive where
  path : String
  original : String
  updated : String
deriving DecidableEq, Repr

/-- The ordered sequence of edit directives extracted from a response. -/
def pattern_extract (content : String) : List Directive :=
  (pattern_finditer content).map (fun m => ⟨⟨m.path⟩, ⟨m.original⟩, ⟨m.updated⟩⟩)

/-! ## `Coder.do_gpt_powered_replace`

```python
def do_gpt_powered_replace(self, fname, edit, request):
    model = "gpt-3.5-turbo"
    fname = Path(fname)
    content = fname.read_text()
    prompt = prompts.editor_user.format(...)
    messages = [...]
    res, interrupted = self.send(messages, ...)
    if interrupted:
        return
    res = self.strip_quoted_wrapping(res, fname)
    fname.write_text(res)
```

The secondary-model call is the oracle `gptRes = (response, interrupted)`;
`edit` and `request` only feed the prompt, which the oracle abstracts.
`none` models an escaped exception (`FileNotFoundError` from `read_text`
or `IndexError` from the wrapper stripping). -/

def do_gpt_powered_replace (gptRes : String × Bool) (fs : FS) (fname : String) :
    Option FS :=
  match FS.read? fs fname with
  | none => none
  | some _content =>
    if gptRes.2 then some fs  -- interrupted: return before any write
    else
      match strip_quoted_wrapping gptRes.1 (some fname) with
      | none => none
      | some r => some (FS.write fs fname r)

/-! ## `Coder.update_files`

```python
def update_files(self, content, inp):
    edited = set()
    for match in self.pattern.finditer(content):
        _, path, _, _, original, updated = match.groups()
        if path not in self.fnames:
            ... Confirm.ask ...
            if not Confirm.ask(question, console=self.console):
                self.console.print(f"[red]Skipping edit to {path}")
                continue
            self.fnames[path] = 0
        edited.add(path)
        if self.do_replace(path, original, updated):
            continue
        edit = match.group()
        self.do_gpt_powered_replace(path, edit, inp)
    return edited
```

Oracles: `allow path` is the interactive authorisation answer, `gpt k`
the response of the `k`-th escalation call in this run.  The result
carries the final registry and file system; `edited = none` models an
exception escaping the loop (the caller `run_loop` catches it and treats
the turn as `edited = None`), in which case the mutations made before
the raise are retained. -/

structure UFRes where
  fnames : Registry
  fs : FS
  edited : Option (List String)
deriving DecidableEq, Repr

/-- Set insertion for Python `edited.add(path)` (membership semantics;
the iteration order of the returned set is irrelevant to the caller,
which only tests emptiness). -/
def setAdd (l : List String) (p : String) : List String :=
  if p ∈ l then l else l ++ [p]

/-- The per-directive loop of `update_files`. -/
def update_files_go (allow : String → Bool) (gpt : Nat → String × Bool) :
    List Directive → Nat → Registry → FS → List String → UFRes
  | [], _, reg, fs, ed => ⟨reg, fs, some ed⟩
  | d :: ds, k, reg, fs, ed =>
    let reg? : Option Registry :=
      if d.path ∈ Registry.keys reg then some reg
      else if allow d.path then some (reg ++ [(d.path, 0)])  -- self.fnames[path] = 0
      else none  -- authorisation refused: skip this directive
    match reg? with
    | none => update_files_go allow gpt ds k reg fs ed
    | some reg1 =>
      let ed1 := setAdd ed d.path
      match do_replace fs d.path d.original d.updated with
      | none => ⟨reg1, fs, none⟩  -- exception escapes the loop
      | some (fs1, true) => update_files_go allow gpt ds k reg1 fs1 ed1
      | some (fs1, false) =>
        match do_gpt_powered_replace (gpt k) fs1 d.path with
        | none => ⟨reg1, fs1, none⟩
        | some fs2 => update_files_go allow gpt ds (k + 1) reg1 fs2 ed1

/-- `Coder.update_files` on a response text. -/
def update_files (allow : String → Bool) (gpt : Nat → String × Bool)
    (reg : Registry) (fs : FS) (content : String) : UFRes :=
  update_files_go allow gpt (pattern_extract content) 0 reg fs []

/-! ## `Coder.quoted_file` / `Coder.get_files_content` -/

/-- `Coder.quoted_file` (`none` = `FileNotFoundError` from `read_text`). -/
def quoted_file (fs : FS) (fname : String) : Option String :=
  (FS.read? fs fname).map (fun c => "\n" ++ fname ++ "\n```\n" ++ c ++ "\n```\n")

/-- The `prompt += self.quoted_file(fname)` accumulation loop of
`get_files_content`; `none` = a raised `FileNotFoundError`. -/
def get_files_content_go (fs : FS) : List String → Option String → Option String
  | [], acc => acc
  | f :: l, acc =>
    get_files_content_go fs l
      (match acc, quoted_file fs f with
       | some a, some q => some (a ++ q)
       | _, _ => none)

/-- `Coder.get_files_content`: concatenation of `quoted_file` over the
registry in order. -/
def get_files_content (reg : Registry) (fs : FS) : Option String :=
  get_files_content_go fs (Registry.keys reg) (some "")

/-! ## `Coder.commit`

```python
def commit(self, history=None, prefix=None, ask=False):
    repo = self.repo
    if not repo: return
    if not repo.is_dirty(): return
    diffs = ""
    dirty_fnames = [] ...
    for fname in self.fnames:
        relative_fname = os.path.relpath(fname, repo.working_tree_dir)
        these_diffs = repo.git.diff("HEAD", relative_fname)
        if these_diffs: dirty_fnames.append(fname) ...
    if not dirty_fnames:
        self.last_modified = self.get_last_modified()
        return
    ...
    commit_message, interrupted = self.send(..., silent=True)
    commit_message = commit_message.strip().strip('"').strip()
    if interrupted: raise KeyboardInterrupt
    if prefix: commit_message = prefix + commit_message
    if ask:
        self.last_modified = self.get_last_modified()
        ...
        res = Prompt.ask(...).strip()
        if res.lower() in ["n", "no"]: ... return
        if res.lower() not in ["y", "yes"]: commit_message = res
    repo.git.add(*relative_dirty_fnames)
    full_commit_message = commit_message + "\n\n" + context
    repo.git.commit("-m", full_commit_message, "--no-verify")
    commit_hash = repo.head.commit.hexsha[:7]
    ...
    self.last_modified = self.get_last_modified()
    return commit_hash, commit_message
```

The repository capability and the two interactive/remote answers are the
oracle `CommitOracle`; paths are modelled as already relative
(`os.path.relpath` is the identity for the session-relative names used
here).  The `history` argument only feeds the drafting prompt and the
commit body, neither of which is returned, so it is omitted. -/

structure CommitOracle where
  present : Bool          -- self.repo is set
  isDirty : Bool          -- repo.is_dirty()
  diff : String → String  -- repo.git.diff("HEAD", f)
  draft : String          -- drafted commit message from the secondary model
  draftInterrupted : Bool -- interrupt during drafting
  answer : String         -- Prompt.ask reply (used only when ask=True)
  hexsha : String         -- repo.head.commit.hexsha after committing

structure CommitRes where
  result : Option (String × String)  -- (commit_hash, commit_message) | None
  last_modified : Nat                -- self.last_modified afterwards
  raised : Bool                      -- KeyboardInterrupt propagated
deriving DecidableEq, Repr

def commit (o : CommitOracle) (reg : Registry) (mtime : String → Nat)
    (lm : Nat) (pfx : Option String) (ask : Bool) : CommitRes :=
  if ¬ o.present then ⟨none, lm, false⟩
  else if ¬ o.isDirty then ⟨none, lm, false⟩
  else
    let dirty_fnames := (Registry.keys reg).filter (fun f => o.diff f ≠ "")
    if dirty_fnames = [] then ⟨none, get_last_modified reg mtime, false⟩
    else
      let commit_message := pyStrip (pyStripChar (pyStrip o.draft) '"')
      if o.draftInterrupted then ⟨none, lm, true⟩
      else
        let commit_message :=
          match pfx with
          | some p => p ++ commit_message
          | none => commit_message
        if ask then
          let lm1 := get_last_modified reg mtime
          let res := pyStrip o.answer
          if pyLower res = "n" ∨ pyLower res = "no" then ⟨none, lm1, false⟩
          else
            let commit_message :=
              if pyLower res = "y" ∨ pyLower res = "yes" then commit_message else res
            ⟨some (pyTake o.hexsha 7, commit_message), get_last_modified reg mtime, false⟩
        else ⟨some (pyTake o.hexsha 7, commit_message), get_last_modified reg mtime, false⟩

/-! ## Conversation state and `Coder.run_loop` -/

/-- One conversation turn (`dict(role=..., content=...)`). -/
structure Msg where
  role : String
  content : String
deriving DecidableEq, Repr

/-- Modelled from the spec: `prompts.py` is a file of this repository
that is not under `src/`.  Only the existence of the three synthetic
markers matters to the claims (§4.4: "a synthetic 'local edits occurred'
marker", "a synthetic outcome marker (hash+message, or 'no changes
found')"); their exact wording is immaterial. -/
def prompts_files_content_local_edits : String :=
  "I made some local edits to the files."

/-- Modelled from the spec: outcome marker carrying hash and message
(see `prompts_files_content_local_edits`). -/
def prompts_files_content_gpt_edits (hash message : String) : String :=
  "I committed the edits with hash " ++ hash ++ " and message: " ++ message

/-- Modelled from the spec: outcome marker for "no changes found"
(see `prompts_files_content_local_edits`). -/
def prompts_files_content_gpt_no_edits : String :=
  "No changes were found in the tracked files."

/-- The mutable session state of a `Coder` instance that `run_loop`
touches, plus the persisted artifact `tmp.last-edit.md` (`none` = the
file has not been written yet this session). -/
structure CoderState where
  fnames : Registry
  fs : FS
  done_messages : List Msg
  cur_messages : List Msg
  last_modified : Nat
  lastEdit : Option String
deriving DecidableEq, Repr

/-- How a `run_loop` call ends: Python `return` (falls off the end, for
EOF input), `return True`, a propagated `KeyboardInterrupt` (caught by
`run`), a propagated `FileNotFoundError` from reading a registered but
missing file while building the file-snapshot frame (uncaught), or the
`AttributeError` from the call to the undefined method
`check_for_local_edits` (uncaught). -/
inductive LoopExit
  | retNone
  | retTrue
  | kbInterrupt
  | fileError
  | attrError
deriving DecidableEq, Repr

/-- The per-turn oracle: user input, on-disk mtimes, the two repository
snapshots for the (up to) two `commit` calls, the main model response
and its interruption flag, the authorisation answers and the escalation
responses. -/
structure LoopOracle where
  inp : Option String
  mtime : String → Nat
  commit1 : CommitOracle
  resp : String
  interrupted : Bool
  allow : String → Bool
  gpt : Nat → String × Bool
  commit2 : CommitOracle

/-- The tail of `run_loop` from the `self.cur_messages += [user inp]`
append (line 224) onwards; split out so each piece is a plain
structurally-defined function.

```python
    self.cur_messages += [dict(role="user", content=inp)]
    messages = [...]; messages += self.done_messages
    messages += self.get_files_messages()          # may raise FileNotFoundError
    messages += self.cur_messages
    content, interrupted = self.send(messages)
    if interrupted:
        content += "\n^C KeyboardInterrupt"
    Path("tmp.last-edit.md").write_text(content)
    self.cur_messages += [dict(role="assistant", content=content)]
    if interrupted:
        return True
    try:
        edited = self.update_files(content, inp)
    except Exception as err:
        ...
        edited = None
    if not edited:
        return True
    res = self.commit(history=self.cur_messages)   # may raise KeyboardInterrupt
    if res: ... saved_message = prompts.files_content_gpt_edits.format(...)
    else: ... saved_message = prompts.files_content_gpt_no_edits
    self.check_for_local_edits(True)   # AttributeError: no such method exists
    self.done_messages += self.cur_messages        # unreachable
    self.done_messages += [ ... saved_message ...] # unreachable
    self.cur_messages = []                         # unreachable
    return True
```

`Coder` defines no method `check_for_local_edits`, so every turn that
applies at least one edit and completes the auto-commit raises
`AttributeError` at line 274; the fold of the active buffer into the
archived history (lines 275–281) is dead code. -/
def run_loop_rest (o : LoopOracle) (st : CoderState) (inp : String) :
    CoderState × LoopExit :=
  let st := { st with cur_messages := st.cur_messages ++ [⟨"user", inp⟩] }
  match get_files_content st.fnames st.fs with
  | none => (st, LoopExit.fileError)
  | some _frame =>
    let content := if o.interrupted then o.resp ++ "\n^C KeyboardInterrupt" else o.resp
    let st := { st with lastEdit := some content }
    let st := { st with cur_messages := st.cur_messages ++ [⟨"assistant", content⟩] }
    if o.interrupted then (st, LoopExit.retTrue)
    else
      let uf := update_files o.allow o.gpt st.fnames st.fs content
      let st := { st with fnames := uf.fnames, fs := uf.fs }
      match uf.edited with
      | none => (st, LoopExit.retTrue)      -- exception caught: edited = None
      | some ed =>
        if ed = [] then (st, LoopExit.retTrue)  -- `if not edited: return True`
        else
          let c2 := commit o.commit2 st.fnames o.mtime st.last_modified none false
          if c2.raised then (st, LoopExit.kbInterrupt)
          else
            let st := { st with last_modified := c2.last_modified }
            -- saved_message is computed from c2.result, but the next
            -- statement `self.check_for_local_edits(True)` raises
            -- AttributeError, so saved_message is never appended.
            (st, LoopExit.attrError)

/-- `Coder.run_loop` (lines 206–281).

```python
def run_loop(self):
    inp = self.get_input()
    if inp is None:
        return
    self.num_control_c = 0
    if self.last_modified < self.get_last_modified():
        self.commit(ask=True)              # may raise KeyboardInterrupt
        self.done_messages += self.cur_messages
        self.done_messages += [local-edits marker, "Ok."]
        self.cur_messages = []
    ... (run_loop_rest)
```
-/
def run_loop (o : LoopOracle) (st : CoderState) : CoderState × LoopExit :=
  match o.inp with
  | none => (st, LoopExit.retNone)
  | some inp =>
    if st.last_modified < get_last_modified st.fnames o.mtime then
      let c1 := commit o.commit1 st.fnames o.mtime st.last_modified none true
      if c1.raised then (st, LoopExit.kbInterrupt)
      else
        let st := { st with
          last_modified := c1.last_modified,
          done_messages := st.done_messages ++ st.cur_messages ++
            [⟨"user", prompts_files_content_local_edits⟩, ⟨"assistant", "Ok."⟩],
          cur_messages := [] }
        run_loop_rest o st inp
    else run_loop_rest o st inp

/-! # Helper lemmas -/

/-- Case split for a successful `Option` alternative. -/
theorem orElse_eq_some_cases {α : Type} {a b : Option α} {x : α}
    (h : (a <|> b) = some x) : a = some x ∨ b = some x := by
  cases a <;> simp_all

/-- The last element of a list is a singleton suffix. -/
theorem getLast?_singleton_suffix {α : Type} {l : List α} {x : α}
    (h : l.getLast? = some x) : [x] <:+ l := by
  induction l with
  | nil => simp at h
  | cons a t ih =>
    cases t with
    | nil =>
      simp only [List.getLast?_singleton, Option.some_inj] at h
      exact h ▸ List.suffix_refl [a]
    | cons b m =>
      rw [List.getLast?_cons_cons] at h
      exact (ih h).trans (List.suffix_cons a (b :: m))

/-- A nonempty output of the final `strip_quoted_wrapping` step ends in
a newline (the step appends one when missing). -/
theorem stripFinish_newline {ls : List String} (h : stripFinish ls ≠ "") :
    endsWithStr (stripFinish ls) "\n" = true := by
  unfold stripFinish at h ⊢
  by_cases hc : joinNl ls ≠ "" ∧ (joinNl ls).data.getLast? ≠ some '\n'
  · rw [if_pos hc]
    show "\n".data.isSuffixOf _ = true
    rw [List.isSuffixOf_iff_suffix, String.data_append]
    exact List.suffix_append _ _
  · rw [if_neg hc] at h ⊢
    push_neg at hc
    show "\n".data.isSuffixOf _ = true
    rw [List.isSuffixOf_iff_suffix]
    exact getLast?_singleton_suffix (hc h)

/-- A nonempty result of `strip_quoted_wrapping` always ends in a
newline. -/
theorem strip_quoted_wrapping_newline {res : String} {fname : Option String} {a : String}
    (h : strip_quoted_wrapping res fname = some a) (ha : a ≠ "") :
    endsWithStr a "\n" = true := by
  unfold strip_quoted_wrapping at h
  split at h
  · next hres =>
    rw [Option.some_inj] at h
    exact absurd (h ▸ hres) ha
  · split at h
    · exact absurd h (by simp)
    · rw [Option.some_inj] at h
      exact h ▸ stripFinish_newline (h ▸ ha)

/-! # C8 -/

/-- C8: the claim says `strip_quoted_wrapping` returns a string for
every input without raising; the code is wrong.  On a single-line input
that ends with the given filename the first line is dropped, the list
becomes empty, and the subsequent `res[0]` raises `IndexError`
(modelled as `none`). -/
theorem C8_strip_quoted_wrapping_raises :
    strip_quoted_wrapping "file1.txt" (some "file1.txt") = none := by rfl

/-! # C5 -/

/-- C5: for every escalated directive, if the secondary-model call is
cancelled before completion, `do_gpt_powered_replace` returns before
any write, leaving the whole file system — in particular the target
file's content — exactly as it was. -/
theorem C5_escalation_interrupted_no_write (fs : FS) (fname r c : String)
    (h : FS.read? fs fname = some c) :
    do_gpt_powered_replace (r, true) fs fname = some fs := by
  unfold do_gpt_powered_replace
  rw [h]
  rfl

/-- Witness for C5 at a concrete file system. -/
theorem C5_escalation_interrupted_no_write_witness :
    do_gpt_powered_replace ("whatever", true) [("a.txt", "mmm\n")] "a.txt" =
      some [("a.txt", "mmm\n")] :=
  C5_escalation_interrupted_no_write [("a.txt", "mmm\n")] "a.txt" "whatever" "mmm\n" (by rfl)

/-! # C1 -/

/-- C1 counterexample: the claim says the written content equals the
directive's updated text terminated by exactly one trailing newline.
For the realisable updated text `"x\n\n\n"` (an updated section ending
in two blank lines) applied with an empty original to an empty file,
the code writes `"x\n\n"`: not equal to the updated text, and
terminated by two newlines rather than exactly one. -/
theorem C1_do_replace_counterexample :
    do_replace [("f.txt", "")] "f.txt" "" "x\n\n\n" =
      some ([("f.txt", "x\n\n")], true) ∧
    ("x\n\n" : String) ≠ "x\n\n\n" ∧
    endsWithStr "x\n\n" "\n\n" = true := by
  refine ⟨by rfl, by decide, by rfl⟩

/-- C1 amended: applying a directive whose original text strips to
empty to a file whose content is empty writes exactly the
fence-and-filename stripped updated text; that text, when nonempty, is
terminated by a trailing newline (one is appended when missing;
repeated trailing newlines are not collapsed to one). -/
theorem C1_do_replace_empty_before_amended (fs : FS) (fname before after a : String)
    (hb : strip_quoted_wrapping before (some fname) = some "")
    (hafter : strip_quoted_wrapping after (some fname) = some a)
    (hread : FS.read? fs fname = some "") :
    do_replace fs fname before after = some (FS.write fs fname a, true) ∧
    (a ≠ "" → endsWithStr a "\n" = true) := by
  constructor
  · unfold do_replace
    rw [hb, hafter]
    simp [hread]
  · intro ha
    exact strip_quoted_wrapping_newline hafter ha

/-- Witness for C1 amended: populating the empty `f.txt` with `"x\n"`. -/
theorem C1_do_replace_empty_before_amended_witness :
    do_replace [("f.txt", "")] "f.txt" "" "x\n" = some ([("f.txt", "x\n")], true) ∧
    (("x\n" : String) ≠ "" → endsWithStr "x\n" "\n" = true) := by
  have h := C1_do_replace_empty_before_amended [("f.txt", "")] "f.txt" "" "x\n" "x\n"
    (by rfl) (by rfl) (by rfl)
  simpa using h

/-- Every `commit` call either reports no commit, or commits: then the
hash is the 7-character sha prefix, the baseline is the current maximum
mtime and no interrupt was raised. -/
theorem commit_shape (o : CommitOracle) (reg : Registry) (mtime : String → Nat)
    (lm : Nat) (pfx : Option String) (ask : Bool) :
    (commit o reg mtime lm pfx ask).result = none ∨
    ∃ msg, commit o reg mtime lm pfx ask =
      ⟨some (pyTake o.hexsha 7, msg), get_last_modified reg mtime, false⟩ := by
  unfold commit
  dsimp only
  repeat' split
  all_goals first
    | exact Or.inl rfl
    | exact Or.inr ⟨_, rfl⟩

/-! # C4 -/

/-- C4 counterexample: with a repository that reports no changes at all
(`is_dirty()` false) — so in particular no tracked file differs from the
last commit — `commit` returns `none` but does **not** advance the
modification-time baseline (3 stays 3 although the current maximum
mtime is 10), contradicting the claim. -/
theorem C4_commit_counterexample :
    commit ⟨true, false, (fun _ => ""), "", false, "", ""⟩ [("f.txt", 5)]
        (fun _ => 10) 3 none false = ⟨none, 3, false⟩ ∧
    get_last_modified [("f.txt", 5)] (fun _ => 10) = 10 ∧ (3 : Nat) ≠ 10 := by
  refine ⟨by rfl, by rfl, by decide⟩

/-- C4 amended: (1) when the repository is absent or not dirty at all,
`commit` returns `none` leaving the baseline untouched; (2) when it is
dirty but no tracked file differs from HEAD, `commit` returns `none`
and advances the baseline; (3) whenever a commit is made, the returned
hash is the 7-character prefix of HEAD's sha and the baseline is
advanced; (4) that prefix is nonempty whenever the sha is nonempty; but
(5) the returned message can be empty (e.g. when the drafted message
strips to nothing), so the claimed "non-empty message" does not hold. -/
theorem C4_commit_amended :
    (∀ (o : CommitOracle) (reg : Registry) (mtime : String → Nat) (lm : Nat)
        (pfx : Option String) (ask : Bool),
      o.present = false ∨ o.isDirty = false →
      commit o reg mtime lm pfx ask = ⟨none, lm, false⟩) ∧
    (∀ (o : CommitOracle) (reg : Registry) (mtime : String → Nat) (lm : Nat)
        (pfx : Option String) (ask : Bool),
      o.present = true → o.isDirty = true →
      (Registry.keys reg).filter (fun f => o.diff f ≠ "") = [] →
      commit o reg mtime lm pfx ask = ⟨none, get_last_modified reg mtime, false⟩) ∧
    (∀ (o : CommitOracle) (reg : Registry) (mtime : String → Nat) (lm : Nat)
        (pfx : Option String) (ask : Bool) (hm : String × String),
      (commit o reg mtime lm pfx ask).result = some hm →
      hm.1 = pyTake o.hexsha 7 ∧
      (commit o reg mtime lm pfx ask).last_modified = get_last_modified reg mtime) ∧
    (∀ s : String, s ≠ "" → pyTake s 7 ≠ "") ∧
    (commit ⟨true, true, (fun _ => "d"), "", false, "", "abcdef1234abcdef"⟩
        [("f", 1)] (fun _ => 1) 0 none false).result = some ("abcdef1", "") := by
  refine ⟨?_, ?_, ?_, ?_, by rfl⟩
  · intro o reg mtime lm pfx ask h
    unfold commit
    rcases h with h | h <;> simp [h]
  · intro o reg mtime lm pfx ask hp hd hf
    unfold commit
    simp only [hp, hd, hf]
    simp
  · intro o reg mtime lm pfx ask hm h
    rcases commit_shape o reg mtime lm pfx ask with hs | ⟨msg, hs⟩
    · rw [h] at hs; exact absurd hs (by simp)
    · rw [hs] at h ⊢
      simp only [Option.some_inj] at h
      exact ⟨by rw [← h], rfl⟩
  · intro s hs hc
    obtain ⟨l⟩ := s
    have hd2 : l.take 7 = [] := congrArg String.data hc
    rcases List.take_eq_nil_iff.mp hd2 with h | h
    · exact absurd h (by decide)
    · exact hs (by rw [h])

/-- Witness for C4 amended: instantiating part (1) at a concrete absent
repository, part (3) at a concrete successful commit, and part (4) at a
concrete sha. -/
theorem C4_commit_amended_witness :
    commit ⟨false, false, (fun _ => ""), "", false, "", ""⟩ [] (fun _ => 0) 3 none false =
      ⟨none, 3, false⟩ ∧
    (("m234567" : String), ("x" : String)).1 = pyTake "m234567" 7 ∧
    pyTake "abc" 7 ≠ "" := by
  refine ⟨C4_commit_amended.1 _ _ _ _ _ _ (Or.inl rfl), ?_, C4_commit_amended.2.2.2.1 "abc" (by decide)⟩
  exact (C4_commit_amended.2.2.1 ⟨true, true, (fun _ => "d"), "x", false, "", "m234567"⟩
    [("f", 1)] (fun _ => 2) 0 none false ("m234567", "x") (by rfl)).1

/-! # C9 -/

/-- C9: in a `commit(ask=True)` call that reaches the interactive
prompt (repository present and dirty, some tracked file differs,
drafting not interrupted), the modification-time baseline is advanced
to the current maximum mtime *before* the user answers, so even a
declining answer ("n"/"no") returns `none` with the baseline advanced —
and the same out-of-band changes are not re-detected (the `run_loop`
re-detection test `last_modified < get_last_modified()` is false). -/
theorem C9_commit_ask_declined_advances_baseline
    (o : CommitOracle) (reg : Registry) (mtime : String → Nat) (lm : Nat)
    (pfx : Option String)
    (hp : o.present = true) (hd : o.isDirty = true)
    (hdirty : (Registry.keys reg).filter (fun f => o.diff f ≠ "") ≠ [])
    (hni : o.draftInterrupted = false)
    (hn : pyLower (pyStrip o.answer) = "n" ∨ pyLower (pyStrip o.answer) = "no") :
    commit o reg mtime lm pfx true = ⟨none, get_last_modified reg mtime, false⟩ ∧
    ¬ ((commit o reg mtime lm pfx true).last_modified < get_last_modified reg mtime) := by
  have h1 : commit o reg mtime lm pfx true = ⟨none, get_last_modified reg mtime, false⟩ := by
    unfold commit
    dsimp only
    rw [if_neg (show ¬¬o.present = true by simp [hp]),
      if_neg (show ¬¬o.isDirty = true by simp [hd]),
      if_neg hdirty,
      if_neg (show ¬o.draftInterrupted = true by simp [hni]),
      if_pos (show (true : Bool) = true from rfl),
      if_pos hn]
  exact ⟨h1, by rw [h1]; exact Nat.lt_irrefl _⟩

/-- Witness for C9: declining the prompt at a concrete dirty state. -/
theorem C9_commit_ask_declined_advances_baseline_witness :
    commit ⟨true, true, (fun _ => "some diff"), "draft msg", false, " N ", "abc"⟩
        [("f.txt", 5)] (fun _ => 10) 3 none true =
      ⟨none, get_last_modified [("f.txt", 5)] (fun _ => 10), false⟩ ∧
    ¬ ((commit ⟨true, true, (fun _ => "some diff"), "draft msg", false, " N ", "abc"⟩
        [("f.txt", 5)] (fun _ => 10) 3 none true).last_modified <
       get_last_modified [("f.txt", 5)] (fun _ => 10)) :=
  C9_commit_ask_declined_advances_baseline _ _ _ _ _ rfl rfl (by decide) rfl (Or.inl (by rfl))

/-! # C2 -/

/-- `setAdd` contains the added element. -/
theorem mem_setAdd_self (l : List String) (p : String) : p ∈ setAdd l p := by
  unfold setAdd
  by_cases h : p ∈ l <;> simp [h]

/-- `setAdd` keeps the existing elements. -/
theorem mem_setAdd_of_mem {l : List String} {q : String} (h : q ∈ l) (p : String) :
    q ∈ setAdd l p := by
  unfold setAdd
  by_cases hp : p ∈ l <;> simp [hp, h]

/-- Once a path enters the `edited` accumulator it is in every
successfully returned edited set of the remaining loop. -/
theorem update_files_go_edited_mono (allow : String → Bool) (gpt : Nat → String × Bool) :
    ∀ (ds : List Directive) (k : Nat) (reg : Registry) (fs : FS) (ed res : List String),
      (update_files_go allow gpt ds k reg fs ed).edited = some res →
      ∀ p, p ∈ ed → p ∈ res := by
  intro ds
  induction ds with
  | nil =>
    intro k reg fs ed res h p hp
    simp only [update_files_go, Option.some_inj] at h
    exact h ▸ hp
  | cons d ds ih =>
    intro k reg fs ed res h p hp
    simp only [update_files_go] at h
    split at h
    · exact ih k reg fs ed res h p hp
    · split at h
      · simp at h
      · exact ih _ _ _ _ _ h p (mem_setAdd_of_mem hp d.path)
      · split at h
        · simp at h
        · exact ih _ _ _ _ _ h p (mem_setAdd_of_mem hp d.path)

/-- C2 counterexample: a directive for the registered `a.txt` whose
original matches nothing and whose escalation is cancelled produces no
write at all — yet `a.txt` is in the returned edited set, because
`update_files` adds the path before the apply outcome is known.  The
claim says a path appears only for APPLIED or completed ESCALATED
directives. -/
theorem C2_update_files_counterexample :
    update_files (fun _ => false) (fun _ => ("ignored", true)) [("a.txt", 1)]
        [("a.txt", "mmm\n")]
        "a.txt\n<<<<<<< ORIGINAL\nzzz\n=======\nqqq\n>>>>>>> UPDATED\n" =
      ⟨[("a.txt", 1)], [("a.txt", "mmm\n")], some ["a.txt"]⟩ := by rfl

/-- C2 amended: (1) a directive whose interactive authorization is
refused produces no side effect at all — the loop state is exactly as
if the directive were absent — and in particular its path is not
counted as edited on its account; (2) every directive whose path is
registered or whose authorization is granted has its path in the
returned edited set whenever the loop returns one, regardless of
whether the apply or escalation wrote anything. -/
theorem C2_update_files_amended :
    (∀ (allow : String → Bool) (gpt : Nat → String × Bool) (d : Directive)
        (ds : List Directive) (k : Nat) (reg : Registry) (fs : FS) (ed : List String),
      d.path ∉ Registry.keys reg → allow d.path = false →
      update_files_go allow gpt (d :: ds) k reg fs ed =
        update_files_go allow gpt ds k reg fs ed) ∧
    (∀ (allow : String → Bool) (gpt : Nat → String × Bool) (d : Directive)
        (ds : List Directive) (k : Nat) (reg : Registry) (fs : FS)
        (ed res : List String),
      d.path ∈ Registry.keys reg ∨ allow d.path = true →
      (update_files_go allow gpt (d :: ds) k reg fs ed).edited = some res →
      d.path ∈ res) := by
  constructor
  · intro allow gpt d ds k reg fs ed hmem hallow
    simp only [update_files_go]
    rw [if_neg hmem, hallow]
    simp
  · intro allow gpt d ds k reg fs ed res hauth h
    simp only [update_files_go] at h
    have hcore : ∀ (reg1 : Registry),
        (match do_replace fs d.path d.original d.updated with
         | none => (⟨reg1, fs, none⟩ : UFRes)
         | some (fs1, true) => update_files_go allow gpt ds k reg1 fs1 (setAdd ed d.path)
         | some (fs1, false) =>
           match do_gpt_powered_replace (gpt k) fs1 d.path with
           | none => (⟨reg1, fs1, none⟩ : UFRes)
           | some fs2 =>
             update_files_go allow gpt ds (k + 1) reg1 fs2 (setAdd ed d.path)).edited =
          some res →
        d.path ∈ res := by
      intro reg1 h1
      split at h1
      · simp at h1
      · exact update_files_go_edited_mono allow gpt ds k _ _ _ _ h1 d.path
          (mem_setAdd_self ed d.path)
      · split at h1
        · simp at h1
        · exact update_files_go_edited_mono allow gpt ds (k + 1) _ _ _ _ h1 d.path
            (mem_setAdd_self ed d.path)
    by_cases hmem : d.path ∈ Registry.keys reg
    · rw [if_pos hmem] at h
      exact hcore reg h
    · have hallow : allow d.path = true := by
        rcases hauth with h2 | h2
        · exact absurd h2 hmem
        · exact h2
      rw [if_neg hmem, if_pos hallow] at h
      exact hcore (reg ++ [(d.path, 0)]) h

/-- Witness for C2 amended: part (1) at a refused directive for an
unregistered `b.txt`, part (2) at the cancelled-escalation run for the
registered `a.txt`. -/
theorem C2_update_files_amended_witness :
    update_files_go (fun _ => false) (fun _ => ("", false))
        [⟨"b.txt", "x\n", "y\n"⟩] 0 [] [] [] =
      update_files_go (fun _ => false) (fun _ => ("", false)) [] 0 [] [] [] ∧
    ("a.txt" : String) ∈ (["a.txt"] : List String) := by
  constructor
  · exact C2_update_files_amended.1 (fun _ => false) (fun _ => ("", false))
      ⟨"b.txt", "x\n", "y\n"⟩ [] 0 [] [] [] (by decide) rfl
  · exact C2_update_files_amended.2 (fun _ => false) (fun _ => ("ignored", true))
      ⟨"a.txt", "zzz\n", "qqq\n"⟩ [] 0 [("a.txt", 1)] [("a.txt", "mmm\n")] [] ["a.txt"]
      (Or.inl (by decide)) (by rfl)

/-! # C3 and C6: run_loop behaviour -/

/-- Whatever happens after the response is received, the persisted
`tmp.last-edit.md` content of the finished turn is the received
response, with the interruption marker appended when the stream was
cancelled. -/
theorem run_loop_rest_lastEdit (o : LoopOracle) (st : CoderState) (inp frame : String)
    (hf : get_files_content st.fnames st.fs = some frame) :
    (run_loop_rest o st inp).1.lastEdit =
      some (if o.interrupted then o.resp ++ "\n^C KeyboardInterrupt" else o.resp) := by
  unfold run_loop_rest
  dsimp only
  rw [hf]
  dsimp only
  repeat' split
  all_goals rfl

/-- C3 counterexample: a concrete turn in which no directive applies
(the response `"hello\n"` contains none) completes with `return True`
and leaves the active buffer nonempty — the user and assistant messages
are retained — so the buffer is *not* empty at the start of the next
apply-cycle, refuting the claimed invariant. -/
theorem C3_run_loop_counterexample :
    run_loop
        ⟨some "hi", fun _ => 5, ⟨false, false, fun _ => "", "", false, "", ""⟩,
          "hello\n", false, fun _ => false, fun _ => ("", false),
          ⟨false, false, fun _ => "", "", false, "", ""⟩⟩
        ⟨[("f.txt", 0)], [("f.txt", "")], [], [], 5, none⟩ =
      (⟨[("f.txt", 0)], [("f.txt", "")], [],
        [⟨"user", "hi"⟩, ⟨"assistant", "hello\n"⟩], 5, some "hello\n"⟩,
       LoopExit.retTrue) ∧
    ([⟨"user", "hi"⟩, ⟨"assistant", "hello\n"⟩] : List Msg) ≠ [] :=
  ⟨rfl, by simp⟩

/-- C3 amended: in a turn with no out-of-band edits and an uncancelled
response, (1) when no directive applies (or the apply pass raised) the
turn returns `True` and the active buffer is retained — extended by the
user and assistant messages, hence nonempty at the next cycle's start,
so the emptiness invariant fails; (2) when at least one directive
applied and the auto-commit is not interrupted, the turn aborts with
the `AttributeError` from the undefined `check_for_local_edits` before
folding, so the buffer is again not cleared and nothing is archived. -/
theorem C3_run_loop_buffer_amended (o : LoopOracle) (st : CoderState) (inp frame : String)
    (hinp : o.inp = some inp)
    (hob : ¬ (st.last_modified < get_last_modified st.fnames o.mtime))
    (hint : o.interrupted = false)
    (hf : get_files_content st.fnames st.fs = some frame) :
    ((update_files o.allow o.gpt st.fnames st.fs o.resp).edited = none ∨
     (update_files o.allow o.gpt st.fnames st.fs o.resp).edited = some [] →
     (run_loop o st).2 = LoopExit.retTrue ∧
     (run_loop o st).1.cur_messages =
       st.cur_messages ++ [⟨"user", inp⟩, ⟨"assistant", o.resp⟩] ∧
     (run_loop o st).1.cur_messages ≠ []) ∧
    (∀ ed, (update_files o.allow o.gpt st.fnames st.fs o.resp).edited = some ed →
     ed ≠ [] →
     (commit o.commit2 (update_files o.allow o.gpt st.fnames st.fs o.resp).fnames
        o.mtime st.last_modified none false).raised = false →
     (run_loop o st).2 = LoopExit.attrError ∧
     (run_loop o st).1.cur_messages =
       st.cur_messages ++ [⟨"user", inp⟩, ⟨"assistant", o.resp⟩] ∧
     (run_loop o st).1.done_messages = st.done_messages) := by
  have hrl : run_loop o st = run_loop_rest o st inp := by
    unfold run_loop
    simp only [hinp]
    rw [if_neg hob]
  rw [hrl]
  unfold run_loop_rest
  dsimp only
  rw [hf]
  dsimp only
  simp only [hint, Bool.false_eq_true, if_false]
  constructor
  · intro hed
    rcases hed with hed | hed <;> rw [hed] <;>
      exact ⟨rfl, by simp, by simp⟩
  · intro ed hed hne hraise
    rw [hed]
    dsimp only
    rw [if_neg hne, if_neg (by simp [hraise])]
    exact ⟨rfl, by simp, rfl⟩

/-- Witness for C3 amended: the retained-buffer case at the concrete
no-directive turn of the counterexample state. -/
theorem C3_run_loop_buffer_amended_witness :
    (run_loop
        ⟨some "hi", fun _ => 6, ⟨false, false, fun _ => "", "", false, "", ""⟩,
          "prose only\n", false, fun _ => false, fun _ => ("", false),
          ⟨false, false, fun _ => "", "", false, "", ""⟩⟩
        ⟨[("f.txt", 0)], [("f.txt", "")], [], [], 6, none⟩).2 = LoopExit.retTrue ∧
    (run_loop
        ⟨some "hi", fun _ => 6, ⟨false, false, fun _ => "", "", false, "", ""⟩,
          "prose only\n", false, fun _ => false, fun _ => ("", false),
          ⟨false, false, fun _ => "", "", false, "", ""⟩⟩
        ⟨[("f.txt", 0)], [("f.txt", "")], [], [], 6, none⟩).1.cur_messages =
      [] ++ [⟨"user", "hi"⟩, ⟨"assistant", "prose only\n"⟩] ∧
    (run_loop
        ⟨some "hi", fun _ => 6, ⟨false, false, fun _ => "", "", false, "", ""⟩,
          "prose only\n", false, fun _ => false, fun _ => ("", false),
          ⟨false, false, fun _ => "", "", false, "", ""⟩⟩
        ⟨[("f.txt", 0)], [("f.txt", "")], [], [], 6, none⟩).1.cur_messages ≠ [] :=
  (C3_run_loop_buffer_amended _ _ "hi" "\nf.txt\n```\n\n```\n" rfl (by decide) rfl
    (by rfl)).1 (Or.inr (by rfl))

/-! # C6 -/

/-- C6 counterexample: when the response stream is cancelled, the turn
still writes `tmp.last-edit.md`, but not verbatim: the marker
`"\n^C KeyboardInterrupt"` is appended to the received response. -/
theorem C6_lastEdit_counterexample :
    run_loop
        ⟨some "hi", fun _ => 5, ⟨false, false, fun _ => "", "", false, "", ""⟩,
          "hi there\n", true, fun _ => false, fun _ => ("", false),
          ⟨false, false, fun _ => "", "", false, "", ""⟩⟩
        ⟨[("f.txt", 0)], [("f.txt", "")], [], [], 5, none⟩ =
      (⟨[("f.txt", 0)], [("f.txt", "")], [],
        [⟨"user", "hi"⟩, ⟨"assistant", "hi there\n\n^C KeyboardInterrupt"⟩], 5,
        some "hi there\n\n^C KeyboardInterrupt"⟩,
       LoopExit.retTrue) ∧
    some "hi there\n\n^C KeyboardInterrupt" ≠ some "hi there\n" :=
  ⟨rfl, by simp⟩

/-- C6 amended: in every turn that received input, did not abort in the
out-of-band commit, and could render the file frame, the last assistant
response is written to `tmp.last-edit.md` regardless of whether edits
applied — verbatim exactly when the stream was not cancelled, and with
`"\n^C KeyboardInterrupt"` appended when it was. -/
theorem C6_run_loop_lastEdit_amended (o : LoopOracle) (st : CoderState) (inp frame : String)
    (hinp : o.inp = some inp)
    (hc1 : st.last_modified < get_last_modified st.fnames o.mtime →
      (commit o.commit1 st.fnames o.mtime st.last_modified none true).raised = false)
    (hf : get_files_content st.fnames st.fs = some frame) :
    (run_loop o st).1.lastEdit =
      some (if o.interrupted then o.resp ++ "\n^C KeyboardInterrupt" else o.resp) := by
  unfold run_loop
  simp only [hinp]
  by_cases hob : st.last_modified < get_last_modified st.fnames o.mtime
  · rw [if_pos hob]
    rw [if_neg (by simp [hc1 hob])]
    exact run_loop_rest_lastEdit o _ inp frame hf
  · rw [if_neg hob]
    exact run_loop_rest_lastEdit o st inp frame hf

/-- Witness for C6 amended: an uninterrupted concrete turn writes the
response verbatim. -/
theorem C6_run_loop_lastEdit_amended_witness :
    (run_loop
        ⟨some "hi", fun _ => 5, ⟨false, false, fun _ => "", "", false, "", ""⟩,
          "verbatim answer\n", false, fun _ => false, fun _ => ("", false),
          ⟨false, false, fun _ => "", "", false, "", ""⟩⟩
        ⟨[("f.txt", 0)], [("f.txt", "")], [], [], 5, none⟩).1.lastEdit =
      some (if false then "verbatim answer\n" ++ "\n^C KeyboardInterrupt" else "verbatim answer\n") :=
  C6_run_loop_lastEdit_amended _ _ "hi" "\nf.txt\n```\n\n```\n" rfl
    (fun h => absurd h (by decide)) (by rfl)

/-! # C10: the tracked-file registry only grows -/

/-- Registry pairs survive the whole `update_files` loop. -/
theorem update_files_go_registry_mem (allow : String → Bool) (gpt : Nat → String × Bool) :
    ∀ (ds : List Directive) (k : Nat) (reg : Registry) (fs : FS) (ed : List String)
      (pr : String × Nat), pr ∈ reg →
      pr ∈ (update_files_go allow gpt ds k reg fs ed).fnames := by
  intro ds
  induction ds with
  | nil => intro k reg fs ed pr hpr; exact hpr
  | cons d ds ih =>
    intro k reg fs ed pr hpr
    simp only [update_files_go]
    split
    · exact ih k reg fs ed pr hpr
    · next reg1 heq =>
      have hpr1 : pr ∈ reg1 := by
        split at heq
        · exact (Option.some_inj.mp heq) ▸ hpr
        · split at heq
          · exact (Option.some_inj.mp heq) ▸ List.mem_append_left _ hpr
          · exact absurd heq (by simp)
      split
      · exact hpr1
      · exact ih _ reg1 _ _ pr hpr1
      · split
        · exact hpr1
        · exact ih _ reg1 _ _ pr hpr1

/-- Key-set monotonicity of the `update_files` loop. -/
theorem update_files_go_keys_subset (allow : String → Bool) (gpt : Nat → String × Bool)
    (ds : List Directive) (k : Nat) (reg : Registry) (fs : FS) (ed : List String) :
    Registry.keys reg ⊆ Registry.keys (update_files_go allow gpt ds k reg fs ed).fnames := by
  intro p hp
  obtain ⟨pr, hpr, hfst⟩ := List.mem_map.mp hp
  exact List.mem_map.mpr ⟨pr, update_files_go_registry_mem allow gpt ds k reg fs ed pr hpr, hfst⟩

/-- Key-set monotonicity of `run_loop_rest`. -/
theorem run_loop_rest_keys_subset (o : LoopOracle) (st : CoderState) (inp : String) :
    Registry.keys st.fnames ⊆ Registry.keys (run_loop_rest o st inp).1.fnames := by
  unfold run_loop_rest
  dsimp only
  split
  · exact fun p hp => hp
  · split
    · exact fun p hp => hp
    · split
      · exact update_files_go_keys_subset _ _ _ _ _ _ _
      · split
        · exact update_files_go_keys_subset _ _ _ _ _ _ _
        · split
          · exact update_files_go_keys_subset _ _ _ _ _ _ _
          · exact update_files_go_keys_subset _ _ _ _ _ _ _

/-- Key-set monotonicity of a whole turn. -/
theorem run_loop_keys_subset (o : LoopOracle) (st : CoderState) :
    Registry.keys st.fnames ⊆ Registry.keys (run_loop o st).1.fnames := by
  unfold run_loop
  split
  · exact fun p hp => hp
  · split
    · dsimp only
      split
      · exact fun p hp => hp
      · exact fun p hp => run_loop_rest_keys_subset o _ _ hp
    · exact run_loop_rest_keys_subset _ _ _

/-- The frame accumulator never recovers from a raised read. -/
theorem get_files_content_go_none (fs : FS) :
    ∀ l : List String, get_files_content_go fs l none = none := by
  intro l
  induction l with
  | nil => rfl
  | cons f l ih => simp only [get_files_content_go]; exact ih

/-- A successful frame accumulation only extends its accumulator. -/
theorem get_files_content_go_prefix (fs : FS) :
    ∀ (l : List String) (a out : String),
      get_files_content_go fs l (some a) = some out → ∃ t, out = a ++ t := by
  intro l
  induction l with
  | nil =>
    intro a out h
    exact ⟨"", by simpa using (Option.some_inj.mp h).symm⟩
  | cons f l ih =>
    intro a out h
    simp only [get_files_content_go] at h
    cases hq : quoted_file fs f with
    | none => rw [hq] at h; rw [get_files_content_go_none] at h; exact absurd h (by simp)
    | some q =>
      rw [hq] at h
      obtain ⟨t, ht⟩ := ih (a ++ q) out h
      exact ⟨q ++ t, by rw [ht, String.append_assoc]⟩

/-- Every file visited by the frame loop appears in a successful frame. -/
theorem get_files_content_go_includes (fs : FS) :
    ∀ (l : List String) (a out p : String), p ∈ l →
      get_files_content_go fs l (some a) = some out →
      ∃ q pre post, quoted_file fs p = some q ∧ out = pre ++ q ++ post := by
  intro l
  induction l with
  | nil => intro a out p hp; exact absurd hp (by simp)
  | cons f l ih =>
    intro a out p hp h
    simp only [get_files_content_go] at h
    cases hq : quoted_file fs f with
    | none => rw [hq] at h; rw [get_files_content_go_none] at h; exact absurd h (by simp)
    | some q =>
      rw [hq] at h
      rcases List.mem_cons.mp hp with hpf | hpl
      · obtain ⟨t, ht⟩ := get_files_content_go_prefix fs l (a ++ q) out h
        exact ⟨q, a, t, hpf ▸ hq, by rw [ht, String.append_assoc]⟩
      · exact ih (a ++ q) out p hpl h

/-- C10: (1) an authorized edit to an unregistered path permanently
registers it with recorded mtime 0; (2) `update_files` never removes a
registered path; (3) neither does a whole turn; (4) every registered
path's quoted content is part of every successfully rendered
file-snapshot frame; (5) every registered path whose diff is nonempty
is in the dirty-file list scanned by the Commit Synchronizer. -/
theorem C10_registry_only_grows :
    (∀ (allow : String → Bool) (gpt : Nat → String × Bool) (d : Directive)
        (ds : List Directive) (k : Nat) (reg : Registry) (fs : FS) (ed : List String),
      d.path ∉ Registry.keys reg → allow d.path = true →
      (d.path, 0) ∈ (update_files_go allow gpt (d :: ds) k reg fs ed).fnames) ∧
    (∀ (allow : String → Bool) (gpt : Nat → String × Bool) (content : String)
        (reg : Registry) (fs : FS),
      Registry.keys reg ⊆ Registry.keys (update_files allow gpt reg fs content).fnames) ∧
    (∀ (o : LoopOracle) (st : CoderState),
      Registry.keys st.fnames ⊆ Registry.keys (run_loop o st).1.fnames) ∧
    (∀ (reg : Registry) (fs : FS) (p out : String),
      p ∈ Registry.keys reg → get_files_content reg fs = some out →
      ∃ q pre post, quoted_file fs p = some q ∧ out = pre ++ q ++ post) ∧
    (∀ (diff : String → String) (reg : Registry) (p : String),
      p ∈ Registry.keys reg → diff p ≠ "" →
      p ∈ (Registry.keys reg).filter (fun f => diff f ≠ "")) := by
  refine ⟨?_, ?_, run_loop_keys_subset, ?_, ?_⟩
  · intro allow gpt d ds k reg fs ed hmem hallow
    simp only [update_files_go]
    rw [if_neg hmem, if_pos hallow]
    dsimp only
    have hpr : (d.path, 0) ∈ reg ++ [(d.path, 0)] :=
      List.mem_append_right _ (by simp)
    split
    · exact hpr
    · exact update_files_go_registry_mem allow gpt ds k _ _ _ _ hpr
    · split
      · exact hpr
      · exact update_files_go_registry_mem allow gpt ds (k + 1) _ _ _ _ hpr
  · intro allow gpt content reg fs
    exact update_files_go_keys_subset allow gpt (pattern_extract content) 0 reg fs []
  · intro reg fs p out hp h
    exact get_files_content_go_includes fs (Registry.keys reg) "" out p hp h
  · intro diff reg p hp hd
    exact List.mem_filter.mpr ⟨hp, by simp [hd]⟩

/-- Witness for C10: part (1) registers a concrete new file with mtime
0, part (4) locates a concrete quoted file inside a concrete frame,
part (5) a concrete dirty scan. -/
theorem C10_registry_only_grows_witness :
    ("new.txt", 0) ∈ (update_files_go (fun _ => true) (fun _ => ("", false))
        [⟨"new.txt", "", "hello\n"⟩] 0 [] [] []).fnames ∧
    (∃ q pre post, quoted_file [("f.txt", "x")] "f.txt" = some q ∧
      "\nf.txt\n```\nx\n```\n" = pre ++ q ++ post) ∧
    ("f.txt" : String) ∈ (Registry.keys [("f.txt", 3)]).filter
      (fun f => (fun _ => "a diff") f ≠ "") := by
  refine ⟨?_, ?_, ?_⟩
  · exact C10_registry_only_grows.1 (fun _ => true) (fun _ => ("", false))
      ⟨"new.txt", "", "hello\n"⟩ [] 0 [] [] [] (by simp [Registry.keys]) rfl
  · exact C10_registry_only_grows.2.2.2.1 [("f.txt", 0)] [("f.txt", "x")] "f.txt"
      "\nf.txt\n```\nx\n```\n" (by simp [Registry.keys]) (by rfl)
  · exact C10_registry_only_grows.2.2.2.2 (fun _ => "a diff") [("f.txt", 3)] "f.txt"
      (by simp [Registry.keys]) (by simp)

/-! # C7: the extractor

The key lemma is that every successful piece of the matcher hands its
continuation a suffix of its subject, so a successful match must have
consumed the literal `<<<<<<< ORIGINAL` somewhere inside the subject;
a subject not containing that sentinel therefore admits no match at any
position and the scan returns the empty sequence. -/

/-- A successful literal consume: the literal is a prefix and the
continuation subject a suffix. -/
theorem litChars_eq_some {pat s s1 : List Char} (h : litChars pat s = some s1) :
    pat <+: s ∧ s1 <:+ s := by
  unfold litChars at h
  split at h
  · next hp =>
    exact ⟨List.isPrefixOf_iff_prefix.mp hp, (Option.some_inj.mp h) ▸ List.drop_suffix _ _⟩
  · exact absurd h (by simp)

/-- `\S*` hands its continuation a suffix. -/
theorem starS_suffix {α : Type} {r : α} :
    ∀ {s : List Char} {k : List Char → Option α},
      starS s k = some r → ∃ s', s' <:+ s ∧ k s' = some r := by
  intro s
  induction s with
  | nil => intro k h; exact ⟨[], List.suffix_refl [], h⟩
  | cons c t ih =>
    intro k h
    simp only [starS] at h
    rcases orElse_eq_some_cases h with h1 | h1
    · split at h1
      · exact absurd h1 (by simp)
      · obtain ⟨s', hs', hk⟩ := ih h1
        exact ⟨s', hs'.trans (List.suffix_cons c t), hk⟩
    · exact ⟨c :: t, List.suffix_refl _, h1⟩

/-- `\s*` hands its continuation a suffix. -/
theorem starSpace_suffix {α : Type} {r : α} :
    ∀ {pnl : Bool} {s : List Char} {k : Bool → List Char → Option α},
      starSpace pnl s k = some r → ∃ pnl' s', s' <:+ s ∧ k pnl' s' = some r := by
  intro pnl s
  induction s generalizing pnl with
  | nil => intro k h; exact ⟨pnl, [], List.suffix_refl [], h⟩
  | cons c t ih =>
    intro k h
    simp only [starSpace] at h
    rcases orElse_eq_some_cases h with h1 | h1
    · split at h1
      · obtain ⟨pnl', s', hs', hk⟩ := ih h1
        exact ⟨pnl', s', hs'.trans (List.suffix_cons c t), hk⟩
      · exact absurd h1 (by simp)
    · exact ⟨pnl, c :: t, List.suffix_refl _, h1⟩

/-- `\s+` hands its continuation a suffix. -/
theorem spacePlus_suffix {α : Type} {r : α} {s : List Char}
    {k : Bool → List Char → Option α} (h : spacePlus s k = some r) :
    ∃ pnl' s', s' <:+ s ∧ k pnl' s' = some r := by
  cases s with
  | nil => exact absurd h (by simp [spacePlus])
  | cons c t =>
    simp only [spacePlus] at h
    split at h
    · obtain ⟨pnl', s', hs', hk⟩ := starSpace_suffix h
      exact ⟨pnl', s', hs'.trans (List.suffix_cons c t), hk⟩
    · exact absurd h (by simp)

/-- `[\w\s.-]*` hands its continuation a suffix. -/
theorem starW_suffix {α : Type} {r : α} :
    ∀ {s : List Char} {k : List Char → Option α},
      starW s k = some r → ∃ s', s' <:+ s ∧ k s' = some r := by
  intro s
  induction s with
  | nil => intro k h; exact ⟨[], List.suffix_refl [], h⟩
  | cons c t ih =>
    intro k h
    simp only [starW] at h
    rcases orElse_eq_some_cases h with h1 | h1
    · split at h1
      · obtain ⟨s', hs', hk⟩ := ih h1
        exact ⟨s', hs'.trans (List.suffix_cons c t), hk⟩
      · exact absurd h1 (by simp)
    · exact ⟨c :: t, List.suffix_refl _, h1⟩

/-- `[\w\s.-]+` hands its continuation a suffix. -/
theorem plusW_suffix {α : Type} {r : α} {s : List Char} {k : List Char → Option α}
    (h : plusW s k = some r) : ∃ s', s' <:+ s ∧ k s' = some r := by
  cases s with
  | nil => exact absurd h (by simp [plusW])
  | cons c t =>
    simp only [plusW] at h
    split at h
    · obtain ⟨s', hs', hk⟩ := starW_suffix h
      exact ⟨s', hs'.trans (List.suffix_cons c t), hk⟩
    · exact absurd h (by simp)

/-- `\w*` hands its continuation a suffix. -/
theorem starWord_suffix {α : Type} {r : α} :
    ∀ {s : List Char} {k : List Char → Option α},
      starWord s k = some r → ∃ s', s' <:+ s ∧ k s' = some r := by
  intro s
  induction s with
  | nil => intro k h; exact ⟨[], List.suffix_refl [], h⟩
  | cons c t ih =>
    intro k h
    simp only [starWord] at h
    rcases orElse_eq_some_cases h with h1 | h1
    · split at h1
      · obtain ⟨s', hs', hk⟩ := ih h1
        exact ⟨s', hs'.trans (List.suffix_cons c t), hk⟩
      · exact absurd h1 (by simp)
    · exact ⟨c :: t, List.suffix_refl _, h1⟩

/-- `\w+` hands its continuation a suffix. -/
theorem plusWord_suffix {α : Type} {r : α} {s : List Char} {k : List Char → Option α}
    (h : plusWord s k = some r) : ∃ s', s' <:+ s ∧ k s' = some r := by
  cases s with
  | nil => exact absurd h (by simp [plusWord])
  | cons c t =>
    simp only [plusWord] at h
    split at h
    · obtain ⟨s', hs', hk⟩ := starWord_suffix h
      exact ⟨s', hs'.trans (List.suffix_cons c t), hk⟩
    · exact absurd h (by simp)

/-- The optional absolute prefix hands its continuation a suffix. -/
theorem absPrefix_suffix {α : Type} {r : α} {s : List Char} {k : List Char → Option α}
    (h : absPrefix s k = some r) : ∃ s', s' <:+ s ∧ k s' = some r := by
  unfold absPrefix at h
  rcases orElse_eq_some_cases h with h1 | h1
  · split at h1
    · next a t =>
      split at h1
      · refine ⟨t, ?_, h1⟩
        exact ((List.suffix_cons _ t).trans ((List.suffix_cons _ _).trans (List.suffix_cons _ _)))
      · exact absurd h1 (by simp)
    · exact absurd h1 (by simp)
  · rcases orElse_eq_some_cases h1 with h2 | h2
    · split at h2
      · next t => exact ⟨t, List.suffix_cons _ t, h2⟩
      · exact absurd h2 (by simp)
    · exact ⟨s, List.suffix_refl s, h2⟩

/-- The directory-component star hands its continuation a suffix. -/
theorem dirStar_suffix {α : Type} {r : α} :
    ∀ (fuel : Nat) {s : List Char} {k : List Char → Option α},
      dirStar fuel s k = some r → ∃ s', s' <:+ s ∧ k s' = some r := by
  intro fuel
  induction fuel with
  | zero => intro s k h; exact absurd h (by simp [dirStar])
  | succ fuel ih =>
    intro s k h
    simp only [dirStar] at h
    rcases orElse_eq_some_cases h with h1 | h1
    · obtain ⟨s1, hs1, hk1⟩ := plusW_suffix h1
      cases s1 with
      | nil => exact absurd hk1 (by simp)
      | cons c t =>
        try dsimp only at hk1
        split at hk1
        · obtain ⟨s', hs', hk⟩ := ih hk1
          exact ⟨s', (hs'.trans ((List.suffix_cons c t).trans hs1)), hk⟩
        · exact absurd hk1 (by simp)
    · exact ⟨s, List.suffix_refl s, h1⟩

/-- The optional extension hands its continuation a suffix. -/
theorem optExt_suffix {α : Type} {r : α} {s : List Char} {k : List Char → Option α}
    (h : optExt s k = some r) : ∃ s', s' <:+ s ∧ k s' = some r := by
  unfold optExt at h
  rcases orElse_eq_some_cases h with h1 | h1
  · split at h1
    · next t =>
      obtain ⟨s', hs', hk⟩ := plusWord_suffix h1
      exact ⟨s', hs'.trans (List.suffix_cons _ t), hk⟩
    · exact absurd h1 (by simp)
  · exact ⟨s, List.suffix_refl s, h1⟩

/-- The whole path piece hands its continuation a suffix. -/
theorem pathPart_suffix {α : Type} {r : α} {fuel : Nat} {s : List Char}
    {k : List Char → Option α} (h : pathPart fuel s k = some r) :
    ∃ s', s' <:+ s ∧ k s' = some r := by
  unfold pathPart at h
  obtain ⟨s1, hs1, h1⟩ := absPrefix_suffix h
  obtain ⟨s2, hs2, h2⟩ := dirStar_suffix fuel h1
  obtain ⟨s3, hs3, h3⟩ := plusWord_suffix h2
  obtain ⟨s', hs', hk⟩ := optExt_suffix h3
  exact ⟨s', ((hs'.trans hs3).trans hs2).trans hs1, hk⟩

/-- The optional fence hands its continuation a suffix. -/
theorem optFence_suffix {α : Type} {r : α} {pnl : Bool} {s : List Char}
    {k : Bool → List Char → Option α} (h : optFence pnl s k = some r) :
    ∃ pnl' s', s' <:+ s ∧ k pnl' s' = some r := by
  unfold optFence at h
  rcases orElse_eq_some_cases h with h1 | h1
  · split at h1
    · cases hlit : litChars "```".data s with
      | none => rw [hlit] at h1; exact absurd h1 (by simp)
      | some s1 =>
        rw [hlit] at h1
        obtain ⟨s2, hs2, h2⟩ := starS_suffix h1
        obtain ⟨pnl', s', hs', hk⟩ := starSpace_suffix h2
        exact ⟨pnl', s', (hs'.trans hs2).trans (litChars_eq_some hlit).2, hk⟩
    · exact absurd h1 (by simp)
  · exact ⟨pnl, s, List.suffix_refl s, h1⟩

/-- A successful match attempt implies the subject contains the opening
sentinel `<<<<<<< ORIGINAL`. -/
theorem pattern_matchAt_sentinel {pnl : Bool} {s : List Char} {m : RMatch}
    (h : pattern_matchAt pnl s = some m) : "<<<<<<< ORIGINAL".data <:+: s := by
  unfold pattern_matchAt at h
  obtain ⟨pnl1, s1, hs1, h1⟩ := optFence_suffix h
  try dsimp only at h1
  split at h1
  · obtain ⟨s3, hs3, h3⟩ := pathPart_suffix h1
    try dsimp only at h3
    obtain ⟨pnl4, s4, hs4, h4⟩ := spacePlus_suffix h3
    obtain ⟨pnl5, s5, hs5, h5⟩ := optFence_suffix h4
    try dsimp only at h5
    split at h5
    · cases hlit : litChars "<<<<<<< ORIGINAL\n".data s5 with
      | none => rw [hlit] at h5; exact absurd h5 (by simp)
      | some s6 =>
        have hpre : "<<<<<<< ORIGINAL".data <+: s5 := by
          have h17 := (litChars_eq_some hlit).1
          have : "<<<<<<< ORIGINAL".data <+: "<<<<<<< ORIGINAL\n".data := by decide
          exact this.trans h17
        have hsfx : s5 <:+ s := ((hs5.trans hs4).trans hs3).trans hs1
        exact hpre.isInfix.trans hsfx.isInfix
    · exact absurd h5 (by simp)
  · exact absurd h1 (by simp)

/-- A subject without the sentinel yields an empty scan. -/
theorem pattern_scan_nil :
    ∀ (fuel : Nat) (pnl : Bool) (s : List Char),
      ¬ ("<<<<<<< ORIGINAL".data <:+: s) → pattern_scan fuel pnl s = [] := by
  intro fuel
  induction fuel with
  | zero => intro pnl s _; rfl
  | succ fuel ih =>
    intro pnl s h
    simp only [pattern_scan]
    cases hm : pattern_matchAt pnl s with
    | some m => exact absurd (pattern_matchAt_sentinel hm) h
    | none =>
      cases s with
      | nil => rfl
      | cons c t => exact ih (c = '\n') t (fun hi => h (hi.trans (List.suffix_cons c t).isInfix))

/-- C7: extraction over a text not containing the opening sentinel —
in particular any text with zero well-formed directives and no stray
sentinel — yields the empty sequence (and, being a total function,
never an error); a malformed block with a sentinel but no closing
marker also yields the empty sequence; and a response holding two
well-formed directives for two distinct files yields exactly those two
directives, in the order they occur in the text. -/
theorem C7_pattern_extract :
    (∀ s : String, ¬ ("<<<<<<< ORIGINAL".data <:+: s.data) → pattern_extract s = []) ∧
    pattern_extract "notes\n<<<<<<< ORIGINAL\nx\n=======\ny\nno closing marker\n" = [] ∧
    pattern_extract
        "foo.py\n<<<<<<< ORIGINAL\na\n=======\nb\n>>>>>>> UPDATED\n\nbar.py\n<<<<<<< ORIGINAL\nc\n=======\nd\n>>>>>>> UPDATED\n" =
      [⟨"foo.py", "a\n", "b\n"⟩, ⟨"bar.py", "c\n", "d\n"⟩] := by
  refine ⟨?_, by rfl, by rfl⟩
  intro s hs
  unfold pattern_extract pattern_finditer
  rw [pattern_scan_nil _ _ _ hs]
  rfl

/-- Witness for C7: the sentinel-free `"hello\n"` extracts to nothing. -/
theorem C7_pattern_extract_witness :
    ¬ ("<<<<<<< ORIGINAL".data <:+: "hello\n".data) ∧ pattern_extract "hello\n" = [] :=
  ⟨by decide, C7_pattern_extract.1 "hello\n" (by decide)⟩
